import Mathlib

/-!
# Verification of the order-management-system repository

Shallow embedding of the order-management frontend (React, `src/frontend/src`)
and, where the backend engine is not part of the source tree, spec-modelled
definitions of the order lifecycle / inventory ledger, together with proofs
of the frozen claims about the system.

Conventions of the embedding:
* JS decimal amounts (prices, totals) are modelled in fixed point, as integer
  cents (`Int`): exact for the two-decimal values the UI manipulates
  (`step 0.01` inputs, `toFixed(2)` formatting, which is abstracted away).
* JS integers are modelled as `Int` where the UI can produce negative values
  (`parseInt` of a user-typed string) and as `Nat` where the spec fixes them
  non-negative.
* A `<select>` whose value is the empty string is modelled as `none`;
  a selected product id is `some pid`.
-/

namespace OMS

/-- A product as fetched from `GET /api/products/` (fields used by the UI). -/
structure Product where
  id : Nat
  name : String
  price : Int
  stock_quantity : Int
  deriving Repr, DecidableEq

/-- One row of the order-creation form: `{ product: '', quantity: 1, price: 0 }`
in `OrderForm.js`. `product` is the select value (`none` = no selection). -/
structure FormItem where
  product : Option Nat
  quantity : Int
  price : Int
  deriving Repr, DecidableEq

/-- The initial form row of `OrderForm.js` (`useState([{ product: '', quantity: 1, price: 0 }])`). -/
def initFormItem : FormItem := { product := none, quantity := 1, price := 0 }

/-- `products.find(p => p.id === parseInt(value))` — first product whose id
matches the parsed select value. -/
def findProduct (products : List Product) (value : Option Nat) : Option Product :=
  match value with
  | none => none
  | some pid => products.find? (fun p => p.id = pid)

/-- `updateOrderItem(index, 'product', value)` from `OrderForm.js`: writes the
new select value into the row and refreshes `price` from the product list only
when the lookup succeeds; a failed lookup (deselection: value `''`) leaves the
previously captured price in place. -/
def updateItemProduct (products : List Product) (items : List FormItem)
    (index : Nat) (value : Option Nat) : List FormItem :=
  items.mapIdx (fun i it =>
    if i = index then
      match findProduct products value with
      | some p => { it with product := value, price := p.price }
      | none => { it with product := value }
    else it)

/-- `updateOrderItem(index, 'quantity', v)` from `OrderForm.js`. -/
def updateItemQuantity (items : List FormItem) (index : Nat) (v : Int) : List FormItem :=
  items.mapIdx (fun i it => if i = index then { it with quantity := v } else it)

/-- `addOrderItem()` from `OrderForm.js`: appends a fresh blank row. -/
def addOrderItem (items : List FormItem) : List FormItem :=
  items ++ [initFormItem]

/-- `calculateTotal()` from `OrderForm.js`: sums `price * quantity` over ALL
rows of the form (no filtering). -/
def calculateTotal (items : List FormItem) : Int :=
  items.foldl (fun sum it => sum + it.price * it.quantity) 0

/-- `orderItems.filter(item => item.product && item.quantity > 0)` — the rows
that `handleSubmit` will actually turn into order items. -/
def validItems (items : List FormItem) : List FormItem :=
  items.filter (fun it => it.product.isSome && 0 < it.quantity)

/-- Structured form of the error messages `handleSubmit` can set. -/
inductive SubmitError where
  | emptyOrderNumber
  | noValidItems
  | missingProduct (index : Nat)
  | nonPositiveQuantity (index : Nat)
  | invalidPrice (index : Nat)
  /-- `Item ${i+1}: ${name} only has ${stock} units in stock` -/
  | insufficientStock (index : Nat) (name : String) (stock : Int)
  | nonPositiveTotal
  deriving Repr, DecidableEq

/-- The order payload `handleSubmit` posts to `POST /api/orders/`. -/
structure OrderData where
  order_number : String
  status : String
  total_amount : Int
  deriving Repr, DecidableEq

/-- One payload of the per-item loop posting to `POST /api/order-items/`. -/
structure ItemRequest where
  product : Nat
  quantity : Int
  unit_price : Int
  deriving Repr, DecidableEq

/-- The per-item validation loop of `handleSubmit` (`OrderForm.js` lines
79–104), over the already-filtered `validItems`, reporting the first failing
check. Each item is checked in isolation: product selected, quantity > 0,
price > 0 (JS `!item.price || item.price <= 0`), and — only when the product
is found in the fetched list — `stock_quantity < quantity`. -/
def checkItems (products : List Product) : Nat → List FormItem → Except SubmitError Unit
  | _, [] => .ok ()
  | i, it :: rest =>
    if it.product.isNone then .error (.missingProduct i)
    else if it.quantity ≤ 0 then .error (.nonPositiveQuantity i)
    else if it.price ≤ 0 then .error (.invalidPrice i)
    else
      match findProduct products it.product with
      | some p =>
        if p.stock_quantity < it.quantity then
          .error (.insufficientStock i p.name p.stock_quantity)
        else checkItems products (i + 1) rest
      | none => checkItems products (i + 1) rest

/-- JS `String.prototype.trim()`: strips leading and trailing whitespace
(kernel-reducible restatement of `String.trim`). -/
def jsTrim (s : String) : String :=
  ⟨(((s.data.dropWhile Char.isWhitespace).reverse.dropWhile Char.isWhitespace)).reverse⟩

/-- Row-to-item-request conversion of the creation loop (`OrderForm.js` lines
131–139). -/
def toItemRequest (it : FormItem) : ItemRequest :=
  { product := it.product.getD 0, quantity := it.quantity, unit_price := it.price }

/-- The validation-and-payload part of `handleSubmit` (`OrderForm.js` lines
57–139), with the early returns written as nested alternatives: order number
must be non-blank, at least one valid row, per-item checks, positive total;
on success the order payload (status `"pending"`,
`total_amount = calculateTotal()` over all rows) plus one item request per
valid row. -/
def handleSubmit (products : List Product) (orderNumber : String)
    (items : List FormItem) : Except SubmitError (OrderData × List ItemRequest) :=
  if jsTrim orderNumber = "" then .error .emptyOrderNumber
  else
    let valid := validItems items
    if valid.isEmpty then .error .noValidItems
    else
      match checkItems products 0 valid with
      | .error e => .error e
      | .ok _ =>
        let totalAmount := calculateTotal items
        if totalAmount ≤ 0 then .error .nonPositiveTotal
        else
          .ok ({ order_number := jsTrim orderNumber, status := "pending",
                 total_amount := totalAmount },
               valid.map toItemRequest)

/-- Sum of `quantity × unit_price` over the item requests actually issued. -/
def requestsTotal (reqs : List ItemRequest) : Int :=
  reqs.foldl (fun sum r => sum + r.unit_price * r.quantity) 0

/-- Combined quantity the submission requires of product `pid`, over the rows
that will become items. -/
def requiredOfProduct (items : List FormItem) (pid : Nat) : Int :=
  ((validItems items).filter (fun it => it.product = some pid)).foldl
    (fun s it => s + it.quantity) 0

/-- The boolean outcome of one pass of the per-item loop for a single row
(true iff the loop would not stop at this row). -/
def itemPasses (products : List Product) (it : FormItem) : Bool :=
  if it.product.isNone then false
  else if it.quantity ≤ 0 then false
  else if it.price ≤ 0 then false
  else
    match findProduct products it.product with
    | some p => !(decide (p.stock_quantity < it.quantity))
    | none => true

lemma foldl_add_eq_sum (f : α → Int) :
    ∀ (l : List α) (a : Int), l.foldl (fun s x => s + f x) a = a + (l.map f).sum := by
  intro l
  induction l with
  | nil => simp
  | cons x xs ih => intro a; simp [List.foldl_cons, ih]; ring

lemma calculateTotal_eq_sum (items : List FormItem) :
    calculateTotal items = (items.map fun it => it.price * it.quantity).sum := by
  simpa using foldl_add_eq_sum (fun it : FormItem => it.price * it.quantity) items 0

lemma requestsTotal_eq_sum (reqs : List ItemRequest) :
    requestsTotal reqs = (reqs.map fun r => r.unit_price * r.quantity).sum := by
  simpa using foldl_add_eq_sum (fun r : ItemRequest => r.unit_price * r.quantity) reqs 0

lemma sum_map_filter_of_zero (f : α → Int) (p : α → Bool) (l : List α)
    (h : ∀ x ∈ l, p x = false → f x = 0) :
    (l.map f).sum = ((l.filter p).map f).sum := by
  induction l with
  | nil => simp
  | cons x xs ih =>
    by_cases hp : p x = true
    · simp [List.filter_cons, hp, ih fun y hy => h y (List.mem_cons_of_mem x hy)]
    · have hx : f x = 0 := h x (List.mem_cons_self x xs) (by simpa using hp)
      simp [List.filter_cons, hp, hx, ih fun y hy => h y (List.mem_cons_of_mem x hy)]

lemma checkItems_ok_iff (products : List Product) :
    ∀ (i : Nat) (l : List FormItem),
      checkItems products i l = .ok () ↔ ∀ it ∈ l, itemPasses products it = true := by
  intro i l
  induction l generalizing i with
  | nil => simp [checkItems]
  | cons x xs ih =>
    rw [checkItems]
    by_cases h1 : x.product.isNone
    · rw [if_pos h1]
      simp only [List.mem_cons]
      constructor
      · intro h; cases h
      · intro h
        have hx := h x (Or.inl rfl)
        simp [itemPasses, h1] at hx
    · rw [if_neg h1]
      by_cases h2 : x.quantity ≤ 0
      · rw [if_pos h2]
        simp only [List.mem_cons]
        constructor
        · intro h; cases h
        · intro h
          have hx := h x (Or.inl rfl)
          simp [itemPasses, h1, h2] at hx
      · rw [if_neg h2]
        by_cases h3 : x.price ≤ 0
        · rw [if_pos h3]
          simp only [List.mem_cons]
          constructor
          · intro h; cases h
          · intro h
            have hx := h x (Or.inl rfl)
            simp [itemPasses, h1, h2, h3] at hx
        · rw [if_neg h3]
          cases hf : findProduct products x.product with
          | some p =>
            dsimp only
            by_cases h4 : p.stock_quantity < x.quantity
            · rw [if_pos h4]
              simp only [List.mem_cons]
              constructor
              · intro h; cases h
              · intro h
                have hx := h x (Or.inl rfl)
                simp [itemPasses, h1, h2, h3, hf, h4] at hx
            · rw [if_neg h4, ih (i + 1)]
              simp only [List.mem_cons]
              constructor
              · rintro h it (rfl | hit)
                · simp [itemPasses, h1, h2, h3, hf, h4]
                · exact h it hit
              · intro h it hit; exact h it (Or.inr hit)
          | none =>
            dsimp only
            rw [ih (i + 1)]
            simp only [List.mem_cons]
            constructor
            · rintro h it (rfl | hit)
              · simp [itemPasses, h1, h2, h3, hf]
              · exact h it hit
            · intro h it hit; exact h it (Or.inr hit)

lemma handleSubmit_ok_iff (products : List Product) (n : String) (items : List FormItem)
    (d : OrderData) (r : List ItemRequest) :
    handleSubmit products n items = .ok (d, r) ↔
      jsTrim n ≠ "" ∧ (validItems items).isEmpty = false ∧
      (∀ it ∈ validItems items, itemPasses products it = true) ∧
      ¬ calculateTotal items ≤ 0 ∧
      d = { order_number := jsTrim n, status := "pending",
            total_amount := calculateTotal items } ∧
      r = (validItems items).map toItemRequest := by
  rw [handleSubmit]
  by_cases h1 : jsTrim n = ""
  · simp [h1]
  · rw [if_neg h1]
    by_cases h2 : (validItems items).isEmpty
    · simp [h2, h1]
    · rw [if_neg h2]
      cases hc : checkItems products 0 (validItems items) with
      | error e =>
        have hne : ¬ ∀ it ∈ validItems items, itemPasses products it = true := by
          rw [← checkItems_ok_iff products 0]
          simp [hc]
        simp [hne]
      | ok u =>
        cases u
        have hall : ∀ it ∈ validItems items, itemPasses products it = true :=
          (checkItems_ok_iff products 0 (validItems items)).mp hc
        by_cases h4 : calculateTotal items ≤ 0
        · simp [h4, h1, h2, hall]
        · rw [if_neg h4]
          simp only [Except.ok.injEq, Prod.mk.injEq]
          constructor
          · rintro ⟨rfl, rfl⟩
            exact ⟨h1, by simpa using h2, hall, h4, rfl, rfl⟩
          · rintro ⟨-, -, -, -, rfl, rfl⟩
            exact ⟨rfl, rfl⟩

/-! ## Claim C1 — order total versus created items -/

/-- Product catalogue for the C1 analysis. -/
def c1Products : List Product := [⟨1, "Widget", 5, 10⟩, ⟨2, "Gadget", 3, 10⟩]

/-- Form state reached from the initial blank row by: selecting product 1 on
row 0 (price 5 captured), adding a row, selecting product 2 on row 1, then
deselecting the product on row 0 — `updateOrderItem` does not reset the
captured price when the lookup of the new value fails, so row 0 keeps the
stale price 5. -/
def c1FormState : List FormItem :=
  updateItemProduct c1Products
    (updateItemProduct c1Products
      (addOrderItem (updateItemProduct c1Products [initFormItem] 0 (some 1)))
      1 (some 2))
    0 none

/-- C1 (counterexample): a reachable, validation-passing submission in which
the `total_amount` sent with the order (8) differs from the sum of
`quantity × unit_price` over the items actually created (3): the row excluded
from creation (deselected product, stale price 5) still contributes to
`calculateTotal`. -/
theorem c1_counterexample :
    c1FormState = [⟨none, 1, 5⟩, ⟨some 2, 1, 3⟩] ∧
    handleSubmit c1Products "ORD-1" c1FormState =
      .ok ({ order_number := "ORD-1", status := "pending", total_amount := 8 },
           [{ product := 2, quantity := 1, unit_price := 3 }]) ∧
    requestsTotal [{ product := 2, quantity := 1, unit_price := 3 }] = 3 ∧
    ¬ (8 : Int) = (3 : Int) :=
  ⟨rfl, rfl, rfl, by decide⟩

/-- C1 (amended): for every `createOrder` submission that passes validation,
the `total_amount` sent equals `calculateTotal`, the sum of
`price × quantity` over ALL rows of the form; it equals the sum of
`quantity × unit_price` over the created items whenever every row excluded
from creation (no product selected or quantity ≤ 0) contributes zero to the
total — excluded rows in general do contribute their stale `price × quantity`. -/
theorem c1_total_amount_characterization
    (products : List Product) (n : String) (items : List FormItem)
    (d : OrderData) (r : List ItemRequest)
    (hok : handleSubmit products n items = .ok (d, r)) :
    d.total_amount = calculateTotal items ∧
    ((∀ it ∈ items, (it.product.isSome && decide (0 < it.quantity)) = false →
        it.price * it.quantity = 0) →
      d.total_amount = requestsTotal r) := by
  rcases (handleSubmit_ok_iff products n items d r).mp hok with ⟨-, -, -, -, rfl, rfl⟩
  refine ⟨rfl, fun hz => ?_⟩
  show calculateTotal items = requestsTotal ((validItems items).map toItemRequest)
  rw [requestsTotal_eq_sum, calculateTotal_eq_sum, List.map_map]
  exact sum_map_filter_of_zero _ _ items hz

/-- C1 (witness): the amended theorem applied to a concrete passing
submission with a single valid row. -/
theorem c1_witness :
    ((3 : Int) = calculateTotal [⟨some 2, 1, 3⟩] ∧
     ((∀ it ∈ [(⟨some 2, 1, 3⟩ : FormItem)],
         (it.product.isSome && decide (0 < it.quantity)) = false →
         it.price * it.quantity = 0) →
       (3 : Int) = requestsTotal [{ product := 2, quantity := 1, unit_price := 3 }])) :=
  c1_total_amount_characterization c1Products "ORD-1" [⟨some 2, 1, 3⟩]
    { order_number := "ORD-1", status := "pending", total_amount := 3 }
    [{ product := 2, quantity := 1, unit_price := 3 }] rfl

/-! ## Claim C2 — no summed stock check at submission time -/

/-- A single product with stock 5. -/
def c2Products : List Product := [⟨1, "Widget", 2, 5⟩]

/-- Two rows for the same product, 3 units each: combined 6 > stock 5, but
each row individually fits. -/
def c2Items : List FormItem := [⟨some 1, 3, 2⟩, ⟨some 1, 3, 2⟩]

/-- C2 (counterexample): a submission whose combined quantity for one product
(6) exceeds that product's stock (5) while each row individually fits (3 ≤ 5)
is NOT rejected: `handleSubmit` accepts it, because the stock check of the
validation loop compares each row's quantity separately against
`stock_quantity` and never sums rows referencing the same product. -/
theorem c2_counterexample :
    handleSubmit c2Products "ORD-2" c2Items =
      .ok ({ order_number := "ORD-2", status := "pending", total_amount := 12 },
           [{ product := 1, quantity := 3, unit_price := 2 },
            { product := 1, quantity := 3, unit_price := 2 }]) ∧
    requiredOfProduct c2Items 1 = 6 ∧
    c2Products.map Product.stock_quantity = [5] ∧
    ¬ requiredOfProduct c2Items 1 ≤ 5 ∧
    (c2Items.all fun it => decide (it.quantity ≤ 5)) = true :=
  ⟨rfl, rfl, rfl, by decide, rfl⟩

/-- C2 (amended): the stock check of `handleSubmit` is per item, not summed —
a submission passes validation iff the trimmed order number is non-blank,
there is at least one valid row, every valid row individually passes the
loop's checks (product selected, quantity > 0, price > 0, and quantity ≤ the
product's own stock when the product is found), and the computed total is
positive. No condition constrains the combined quantity of rows referencing
the same product, so a combined over-stock submission is accepted whenever
each row individually fits. -/
theorem c2_per_item_stock_check
    (products : List Product) (n : String) (items : List FormItem) :
    (∃ d r, handleSubmit products n items = .ok (d, r)) ↔
      (jsTrim n ≠ "" ∧ (validItems items).isEmpty = false ∧
       (∀ it ∈ validItems items, itemPasses products it = true) ∧
       ¬ calculateTotal items ≤ 0) := by
  constructor
  · rintro ⟨d, r, h⟩
    have h' := (handleSubmit_ok_iff products n items d r).mp h
    exact ⟨h'.1, h'.2.1, h'.2.2.1, h'.2.2.2.1⟩
  · rintro ⟨h1, h2, h3, h4⟩
    exact ⟨_, _, (handleSubmit_ok_iff products n items _ _).mpr
      ⟨h1, h2, h3, h4, rfl, rfl⟩⟩

/-- C2 (witness): the amended characterization applied to the concrete
combined-over-stock submission, which is accepted. -/
theorem c2_witness :
    ∃ d r, handleSubmit c2Products "ORD-2" c2Items = .ok (d, r) :=
  (c2_per_item_stock_check c2Products "ORD-2" c2Items).mpr
    ⟨by decide, by rfl, by decide, by decide⟩

/-! ## Claim C5 — submission-time stock validation and pending persistence -/

lemma validItems_mem {items : List FormItem} {it : FormItem}
    (h : it ∈ validItems items) : it.product.isSome = true ∧ 0 < it.quantity := by
  have h2 := (List.mem_filter.mp h).2
  simpa using h2

lemma isEmpty_false_of_mem {l : List FormItem} {a : FormItem} (h : a ∈ l) :
    l.isEmpty = false := by
  cases l with
  | nil => cases h
  | cons x xs => rfl

lemma itemPasses_stock {products : List Product} {it : FormItem} {p : Product}
    (h : itemPasses products it = true)
    (hf : findProduct products it.product = some p) :
    it.quantity ≤ p.stock_quantity := by
  by_cases hs : p.stock_quantity < it.quantity
  · exfalso
    simp [itemPasses, hf, hs] at h
  · exact Int.not_lt.mp hs

lemma checkItems_insufficient (products : List Product) :
    ∀ (i : Nat) (l : List FormItem),
      (∀ it ∈ l, it.product.isSome = true) →
      (∀ it ∈ l, ¬ it.quantity ≤ 0) →
      (∀ it ∈ l, ¬ it.price ≤ 0) →
      (∃ it ∈ l, ∃ p, findProduct products it.product = some p ∧
         p.stock_quantity < it.quantity) →
      ∃ j name stock,
        checkItems products i l = .error (.insufficientStock j name stock) ∧
        ∃ it ∈ l, ∃ p, findProduct products it.product = some p ∧
          p.name = name ∧ p.stock_quantity = stock ∧ stock < it.quantity := by
  intro i l
  induction l generalizing i with
  | nil =>
    rintro _ _ _ ⟨it, hit, _⟩
    cases hit
  | cons x xs ih =>
    intro hP hQ hR hEx
    have hx1 : ¬ x.product.isNone = true := by
      have h := hP x (List.mem_cons_self x xs)
      cases hv : x.product with
      | none => rw [hv] at h; cases h
      | some v => simp [hv]
    rw [checkItems, if_neg hx1, if_neg (hQ x (List.mem_cons_self x xs)),
        if_neg (hR x (List.mem_cons_self x xs))]
    cases hf : findProduct products x.product with
    | some p =>
      dsimp only
      by_cases hs : p.stock_quantity < x.quantity
      · rw [if_pos hs]
        exact ⟨i, p.name, p.stock_quantity, rfl,
          x, List.mem_cons_self x xs, p, hf, rfl, rfl, hs⟩
      · rw [if_neg hs]
        have hExTail : ∃ it ∈ xs, ∃ q, findProduct products it.product = some q ∧
            q.stock_quantity < it.quantity := by
          rcases hEx with ⟨it, hit, q, hfq, hv⟩
          rcases List.mem_cons.mp hit with rfl | hit
          · rw [hf] at hfq
            cases hfq
            exact absurd hv hs
          · exact ⟨it, hit, q, hfq, hv⟩
        rcases ih (i + 1)
            (fun it hit => hP it (List.mem_cons_of_mem x hit))
            (fun it hit => hQ it (List.mem_cons_of_mem x hit))
            (fun it hit => hR it (List.mem_cons_of_mem x hit)) hExTail with
          ⟨j, name, stock, hck, it, hit, q, hfq, hn, hst, hv⟩
        exact ⟨j, name, stock, hck,
          it, List.mem_cons_of_mem x hit, q, hfq, hn, hst, hv⟩
    | none =>
      dsimp only
      have hExTail : ∃ it ∈ xs, ∃ q, findProduct products it.product = some q ∧
          q.stock_quantity < it.quantity := by
        rcases hEx with ⟨it, hit, q, hfq, hv⟩
        rcases List.mem_cons.mp hit with rfl | hit
        · rw [hf] at hfq
          cases hfq
        · exact ⟨it, hit, q, hfq, hv⟩
      rcases ih (i + 1)
          (fun it hit => hP it (List.mem_cons_of_mem x hit))
          (fun it hit => hQ it (List.mem_cons_of_mem x hit))
          (fun it hit => hR it (List.mem_cons_of_mem x hit)) hExTail with
        ⟨j, name, stock, hck, it, hit, q, hfq, hn, hst, hv⟩
      exact ⟨j, name, stock, hck,
        it, List.mem_cons_of_mem x hit, q, hfq, hn, hst, hv⟩

/-- C5: every `createOrder` submission is validated against the currently
fetched stock. (a) If validation passes, the posted order has status
`"pending"` and every created row's quantity fits its (found) product's
stock. (b) If some valid row's quantity exceeds the stock of its product,
no order-creation request is issued (the result is never `ok`), and —
provided the earlier checks do not fire first (non-blank order number,
positive prices) — the submission fails precisely with an
`insufficientStock` error naming a product whose stock is exceeded. -/
theorem c5_stock_validation_and_pending
    (products : List Product) (n : String) (items : List FormItem) :
    (∀ d r, handleSubmit products n items = .ok (d, r) →
      d.status = "pending" ∧
      ∀ it ∈ validItems items, ∀ p, findProduct products it.product = some p →
        it.quantity ≤ p.stock_quantity) ∧
    ((∃ it ∈ validItems items, ∃ p, findProduct products it.product = some p ∧
        p.stock_quantity < it.quantity) →
      (∀ d r, ¬ handleSubmit products n items = .ok (d, r)) ∧
      (jsTrim n ≠ "" → (∀ it ∈ validItems items, ¬ it.price ≤ 0) →
        ∃ j name stock,
          handleSubmit products n items = .error (.insufficientStock j name stock) ∧
          ∃ it ∈ validItems items, ∃ p, findProduct products it.product = some p ∧
            p.name = name ∧ p.stock_quantity = stock ∧ stock < it.quantity)) := by
  constructor
  · intro d r hok
    rcases (handleSubmit_ok_iff products n items d r).mp hok with
      ⟨-, -, hall, -, rfl, -⟩
    exact ⟨rfl, fun it hit p hf => itemPasses_stock (hall it hit) hf⟩
  · rintro ⟨it, hit, p, hf, hv⟩
    constructor
    · intro d r hok
      rcases (handleSubmit_ok_iff products n items d r).mp hok with
        ⟨-, -, hall, -, -, -⟩
      exact absurd hv (Int.not_lt.mpr (itemPasses_stock (hall it hit) hf))
    · intro hn hprices
      have hP : ∀ x ∈ validItems items, x.product.isSome = true :=
        fun x hx => (validItems_mem hx).1
      have hQ : ∀ x ∈ validItems items, ¬ x.quantity ≤ 0 :=
        fun x hx => Int.not_le.mpr (validItems_mem hx).2
      rcases checkItems_insufficient products 0 (validItems items) hP hQ hprices
          ⟨it, hit, p, hf, hv⟩ with
        ⟨j, name, stock, hck, x, hx, q, hfq, hnm, hst, hlt⟩
      refine ⟨j, name, stock, ?_, x, hx, q, hfq, hnm, hst, hlt⟩
      rw [handleSubmit, if_neg hn, if_neg (by rw [isEmpty_false_of_mem hit]; exact
        Bool.false_ne_true), hck]

/-- C5 (witness): the theorem applied to a submission whose only row asks for
5 units of a product with stock 2 (Scenario B of the spec), which fails with
an `insufficientStock` error naming that product. -/
theorem c5_witness :
    ((∀ d r, handleSubmit [⟨1, "P", 4, 2⟩] "ORD-5" [⟨some 1, 5, 4⟩] = .ok (d, r) →
      d.status = "pending" ∧
      ∀ it ∈ validItems [⟨some 1, 5, 4⟩], ∀ p,
        findProduct [⟨1, "P", 4, 2⟩] it.product = some p →
        it.quantity ≤ p.stock_quantity) ∧
    ((∃ it ∈ validItems [⟨some 1, 5, 4⟩], ∃ p,
        findProduct [⟨1, "P", 4, 2⟩] it.product = some p ∧
        p.stock_quantity < it.quantity) →
      (∀ d r, ¬ handleSubmit [⟨1, "P", 4, 2⟩] "ORD-5" [⟨some 1, 5, 4⟩] = .ok (d, r)) ∧
      (jsTrim "ORD-5" ≠ "" → (∀ it ∈ validItems [⟨some 1, 5, 4⟩], ¬ it.price ≤ 0) →
        ∃ j name stock,
          handleSubmit [⟨1, "P", 4, 2⟩] "ORD-5" [⟨some 1, 5, 4⟩] =
            .error (.insufficientStock j name stock) ∧
          ∃ it ∈ validItems [⟨some 1, 5, 4⟩], ∃ p,
            findProduct [⟨1, "P", 4, 2⟩] it.product = some p ∧
            p.name = name ∧ p.stock_quantity = stock ∧ stock < it.quantity))) ∧
    handleSubmit [⟨1, "P", 4, 2⟩] "ORD-5" [⟨some 1, 5, 4⟩] =
      .error (.insufficientStock 0 "P" 2) :=
  ⟨c5_stock_validation_and_pending [⟨1, "P", 4, 2⟩] "ORD-5" [⟨some 1, 5, 4⟩], rfl⟩

/-! Claim C9 — all-or-nothing order creation with cleanup -/

/-- A request issued by the frontend while creating an order. -/
inductive CreationRequest where
  | postOrder (data : OrderData)
  | postItem (orderId : Nat) (item : ItemRequest)
  | deleteOrder (orderId : Nat)
  deriving Repr, DecidableEq

/-- The item-creation loop of `handleSubmit` (`OrderForm.js` lines 130–150),
running after the order header was created with id `orderId`: items are
posted one by one, `itemOk i` saying whether the server accepts the i-th
`POST /api/order-items/`. On the first failure the loop issues
`DELETE /api/orders/{orderId}/` (cleanup) and the submission ends in error
(the thrown message reaches the caller via `setError`). Returns the requests
issued after the header post and whether the submission succeeded. -/
def createItemsLoop (orderId : Nat) (itemOk : Nat → Bool) :
    Nat → List ItemRequest → List CreationRequest × Bool
  | _, [] => ([], true)
  | i, req :: rest =>
    if itemOk i then
      let out := createItemsLoop orderId itemOk (i + 1) rest
      (.postItem orderId req :: out.1, out.2)
    else
      ([.postItem orderId req, .deleteOrder orderId], false)

/-- Effect of one creation request on the server store, viewed as a list of
(order id, its items): a successful item post appends to the order's items; a
delete removes the order together with its items (cascade). -/
def applyCreation (store : List (Nat × List ItemRequest)) :
    CreationRequest → List (Nat × List ItemRequest)
  | .postOrder _ => store
  | .postItem oid it =>
    store.map (fun e => if e.1 = oid then (e.1, e.2 ++ [it]) else e)
  | .deleteOrder oid => store.filter (fun e => ¬ e.1 = oid)

/-- Replay of a request list against a store. -/
def applyAllCreation (rs : List CreationRequest)
    (store : List (Nat × List ItemRequest)) : List (Nat × List ItemRequest) :=
  rs.foldl applyCreation store

lemma applyAllCreation_append (rs₁ rs₂ : List CreationRequest)
    (store : List (Nat × List ItemRequest)) :
    applyAllCreation (rs₁ ++ rs₂) store =
      applyAllCreation rs₂ (applyAllCreation rs₁ store) := by
  simp [applyAllCreation, List.foldl_append]

/-- C9: order creation is all-or-nothing at the frontend. If any item post
fails (some index below the item count is refused), the loop ends in error
(failure reported to the caller), its request list ends with the cleanup
`DELETE` of the created order, and replaying the issued requests against any
server store leaves no order with the created id — no partial order with a
subset of its items remains. -/
theorem c9_all_or_nothing (orderId : Nat) (itemOk : Nat → Bool) :
    ∀ (i : Nat) (reqs : List ItemRequest),
      (∃ j, j < reqs.length ∧ itemOk (i + j) = false) →
      (createItemsLoop orderId itemOk i reqs).2 = false ∧
      (createItemsLoop orderId itemOk i reqs).1.getLast? =
        some (.deleteOrder orderId) ∧
      ∀ store, ∀ e ∈ applyAllCreation (createItemsLoop orderId itemOk i reqs).1 store,
        ¬ e.1 = orderId := by
  intro i reqs
  induction reqs generalizing i with
  | nil =>
    rintro ⟨j, hj, -⟩
    cases hj
  | cons req rest ih =>
    rintro ⟨j, hj, hfail⟩
    by_cases hok : itemOk i
    · have hj0 : j ≠ 0 := by
        rintro rfl
        rw [Nat.add_zero] at hfail
        rw [hok] at hfail
        cases hfail
      have hTail : ∃ k, k < rest.length ∧ itemOk (i + 1 + k) = false := by
        refine ⟨j - 1, ?_, ?_⟩
        · have := List.length_cons req rest ▸ hj
          omega
        · have heq : i + 1 + (j - 1) = i + j := by omega
          rw [heq]
          exact hfail
      rcases ih (i + 1) hTail with ⟨hfl, hlast, hstore⟩
      have hred : createItemsLoop orderId itemOk i (req :: rest) =
          (.postItem orderId req :: (createItemsLoop orderId itemOk (i + 1) rest).1,
           (createItemsLoop orderId itemOk (i + 1) rest).2) := by
        rw [createItemsLoop, if_pos hok]
      rw [hred]
      refine ⟨hfl, ?_, ?_⟩
      · have hne : (createItemsLoop orderId itemOk (i + 1) rest).1 ≠ [] := by
          intro hnil
          rw [hnil] at hlast
          cases hlast
        obtain ⟨y, ys, hys⟩ := List.exists_cons_of_ne_nil hne
        rw [hys] at hlast ⊢
        rw [List.getLast?_cons_cons]
        exact hlast
      · intro store e he
        rw [show applyAllCreation
              (.postItem orderId req :: (createItemsLoop orderId itemOk (i + 1) rest).1)
              store =
            applyAllCreation (createItemsLoop orderId itemOk (i + 1) rest).1
              (applyCreation store (.postItem orderId req)) from by
          simp [applyAllCreation]] at he
        exact hstore _ e he
    · have hred : createItemsLoop orderId itemOk i (req :: rest) =
          ([.postItem orderId req, .deleteOrder orderId], false) := by
        rw [createItemsLoop, if_neg hok]
      rw [hred]
      refine ⟨rfl, rfl, ?_⟩
      intro store e he
      simp only [applyAllCreation, List.foldl_cons, List.foldl_nil, applyCreation] at he
      have hmem := (List.mem_filter.mp he).2
      simpa using hmem

/-- C9 (witness): a two-item submission whose second item post is refused
ends in error, with the cleanup delete last and the created order absent
from the replayed store. -/
theorem c9_witness :
    (createItemsLoop 7 (fun j => decide (j = 0)) 0
        [⟨1, 2, 5⟩, ⟨2, 1, 4⟩]).2 = false ∧
    (createItemsLoop 7 (fun j => decide (j = 0)) 0
        [⟨1, 2, 5⟩, ⟨2, 1, 4⟩]).1.getLast? = some (.deleteOrder 7) ∧
    ∀ store, ∀ e ∈ applyAllCreation
        (createItemsLoop 7 (fun j => decide (j = 0)) 0
          [⟨1, 2, 5⟩, ⟨2, 1, 4⟩]).1 store,
      ¬ e.1 = 7 :=
  c9_all_or_nothing 7 (fun j => decide (j = 0)) 0 [⟨1, 2, 5⟩, ⟨2, 1, 4⟩]
    ⟨1, by decide, by decide⟩

/-! Claim C10 — totality of the unified activity-log renderer -/

/-- The kind-specific fields of one unified-feed entry, as destructured by
`renderLog` (`ActivityLog.js`): `log.details.{...}`. -/
structure LogDetails where
  product_name : String
  change_type : String
  quantity_change : Int
  reason : String
  order_number : String
  activity_type : String
  description : String
  deriving Repr, DecidableEq

/-- One entry of `GET /api/activity-log/` as the renderer consumes it. -/
structure LogEntry where
  log_type : String
  details : LogDetails
  deriving Repr, DecidableEq

/-- The table cells one call of `renderLog` produces. -/
inductive RenderedRow where
  | inventory (product_name changeLabel reason changeText : String)
  | order (order_number activity_type description : String)
  | unknown (text : String)
  deriving Repr, DecidableEq

/-- `renderLog` from `ActivityLog.js` lines 34–68 (identical in the unnamed
duplicate view variant): branches on the string tag `log_type`, rendering
the inventory field set, the order field set, or an explicit fallback row. -/
def renderLog (log : LogEntry) : RenderedRow :=
  if log.log_type = "inventory" then
    let isAddition := log.details.change_type = "addition"
    .inventory log.details.product_name
      (if isAddition then "Stock Added" else "Stock Deducted")
      log.details.reason
      ((if isAddition then "+" else "") ++ toString log.details.quantity_change)
  else if log.log_type = "order" then
    .order log.details.order_number log.details.activity_type log.details.description
  else
    .unknown "Unknown log type"

/-- C10: `renderLog` is total over the tag. An entry tagged `"inventory"`
renders the product_name/change_type/quantity_change/reason fields; one
tagged `"order"` renders the order_number/activity_type/description fields;
any other tag renders the explicit fallback row `"Unknown log type"` — the
renderer never fails. -/
theorem c10_renderLog_total (log : LogEntry) :
    (log.log_type = "inventory" →
      renderLog log = .inventory log.details.product_name
        (if log.details.change_type = "addition" then "Stock Added"
         else "Stock Deducted")
        log.details.reason
        ((if log.details.change_type = "addition" then "+" else "") ++
          toString log.details.quantity_change)) ∧
    (log.log_type = "order" →
      renderLog log = .order log.details.order_number log.details.activity_type
        log.details.description) ∧
    (¬ log.log_type = "inventory" → ¬ log.log_type = "order" →
      renderLog log = .unknown "Unknown log type") := by
  refine ⟨fun h => ?_, fun h => ?_, fun h1 h2 => ?_⟩
  · rw [renderLog, if_pos h]
  · rw [renderLog, if_neg ?_, if_pos h]
    rw [h]
    decide
  · rw [renderLog, if_neg h1, if_neg h2]

/-- C10 (witness): the theorem applied to an entry with the unrecognized tag
`"audit"`, which renders the fallback row. -/
theorem c10_witness :
    renderLog ⟨"audit", ⟨"", "", 0, "", "", "", ""⟩⟩ = .unknown "Unknown log type" :=
  (c10_renderLog_total ⟨"audit", ⟨"", "", 0, "", "", "", ""⟩⟩).2.2
    (by decide) (by decide)

/-! Spec-modelled backend engine. The Django backend of this repository is
not under src/ (only the React frontend, scripts and docs are), so the order
lifecycle and inventory ledger are modelled from spec.md sections 3 and 4.
Audit-log rows (InventoryLog, OrderActivity) are not modelled: no claim
below depends on them. -/

namespace Backend

/-- Order status (spec section 4.2): pending (initial), confirmed,
cancelled (terminal). -/
inductive Status where
  | pending
  | confirmed
  | cancelled
  deriving Repr, DecidableEq

/-- An order line item (spec section 3): integer quantity, unit price frozen
at order time (fixed-point cents). -/
structure OrderItem where
  id : Nat
  product_id : Nat
  quantity : Nat
  unit_price : Int
  deriving Repr, DecidableEq

/-- An order aggregate (spec section 3). -/
structure Order where
  id : Nat
  order_number : String
  status : Status
  items : List OrderItem
  total_amount : Int
  deriving Repr, DecidableEq

/-- The persistent store the lifecycle operations act on: per-product stock
and the order table. -/
structure State where
  stock : Nat → Int
  orders : List Order

/-- Structured business errors (spec section 7). -/
inductive LifecycleError where
  | notFound
  | invalidTransition
  | insufficientStock
  deriving Repr, DecidableEq

def findOrder (s : State) (oid : Nat) : Option Order :=
  s.orders.find? (fun o => o.id = oid)

/-- Replace every stored order carrying the id of `o` by `o`. -/
def setOrder (s : State) (o : Order) : State :=
  { s with orders := s.orders.map (fun x => if x.id = o.id then o else x) }

/-- Modelled from the spec (section 4.1): the combined quantity the items
require of product `pid` — multiple items referencing the same product must
have their required quantities summed before a single stock check. -/
def requiredQty (items : List OrderItem) (pid : Nat) : Int :=
  ((items.filter (fun it => it.product_id = pid)).map
    (fun it => (it.quantity : Int))).sum

/-- The per-item deduction loop of `confirm` (spec section 4.2: call deduct
for each item). -/
def deductItems (stock : Nat → Int) : List OrderItem → (Nat → Int)
  | [] => stock
  | it :: rest =>
    deductItems
      (fun pid => if pid = it.product_id then stock pid - (it.quantity : Int)
                  else stock pid)
      rest

/-- The per-item restore loop of `cancel` (spec section 4.2). -/
def restoreItems (stock : Nat → Int) : List OrderItem → (Nat → Int)
  | [] => stock
  | it :: rest =>
    restoreItems
      (fun pid => if pid = it.product_id then stock pid + (it.quantity : Int)
                  else stock pid)
      rest

/-- Point update of one product's stock. -/
def adjustStock (stock : Nat → Int) (pid : Nat) (delta : Int) : Nat → Int :=
  fun p => if p = pid then stock p + delta else stock p

/-- The recomputed order total (spec invariant 2). -/
def totalOf (items : List OrderItem) : Int :=
  (items.map (fun it => (it.quantity : Int) * it.unit_price)).sum

/-- Modelled from the spec: `OrderLifecycle.confirm` (section 4.2) is not in
the source tree. Legal only from `pending`; for every (product, requiredQty)
pair aggregated across the items, verify `requiredQty ≤ stock_quantity`; if
any pair fails, abort with `InsufficientStock` and no partial deduction;
otherwise deduct every item and set status `confirmed`, atomically. -/
def confirm (s : State) (oid : Nat) : Except LifecycleError State :=
  match findOrder s oid with
  | none => .error .notFound
  | some o =>
    if ¬ o.status = .pending then .error .invalidTransition
    else if o.items.any
        (fun it => decide (s.stock it.product_id < requiredQty o.items it.product_id)) then
      .error .insufficientStock
    else
      .ok (setOrder { s with stock := deductItems s.stock o.items }
            { o with status := .confirmed })

/-- Modelled from the spec: `OrderLifecycle.cancel` (section 4.2) is not in
the source tree. Legal from `pending` or `confirmed`, illegal from
`cancelled`; restores every item of a confirmed order before setting status
`cancelled`; a pending order has no stock out, so the status is set
directly. -/
def cancel (s : State) (oid : Nat) : Except LifecycleError State :=
  match findOrder s oid with
  | none => .error .notFound
  | some o =>
    match o.status with
    | .cancelled => .error .invalidTransition
    | .confirmed =>
      .ok (setOrder { s with stock := restoreItems s.stock o.items }
            { o with status := .cancelled })
    | .pending => .ok (setOrder s { o with status := .cancelled })

/-- Modelled from the spec: `OrderItemEditor.updateItem` (section 4.3) is not
in the source tree. Legal only on a confirmed order; quantity 0 removes the
item and restores its full current quantity; an increase reserves the
positive delta after a stock check; a decrease restores the freed delta;
after any successful mutation the total is recomputed from the current item
set. -/
def updateItem (s : State) (oid itemId : Nat) (newQuantity : Nat) :
    Except LifecycleError State :=
  match findOrder s oid with
  | none => .error .notFound
  | some o =>
    if ¬ o.status = .confirmed then .error .invalidTransition
    else
      match o.items.find? (fun it => it.id = itemId) with
      | none => .error .notFound
      | some item =>
        if newQuantity = 0 then
          let items' := o.items.filter (fun it => ¬ it.id = itemId)
          .ok (setOrder
                { s with stock :=
                    adjustStock s.stock item.product_id (item.quantity : Int) }
                { o with items := items', total_amount := totalOf items' })
        else if item.quantity < newQuantity then
          let delta : Int := (newQuantity : Int) - (item.quantity : Int)
          if s.stock item.product_id < delta then .error .insufficientStock
          else
            let items' := o.items.map
              (fun it => if it.id = itemId then { it with quantity := newQuantity }
                         else it)
            .ok (setOrder
                  { s with stock := adjustStock s.stock item.product_id (-delta) }
                  { o with items := items', total_amount := totalOf items' })
        else
          let delta : Int := (item.quantity : Int) - (newQuantity : Int)
          let items' := o.items.map
            (fun it => if it.id = itemId then { it with quantity := newQuantity }
                       else it)
          .ok (setOrder
                { s with stock := adjustStock s.stock item.product_id delta }
                { o with items := items', total_amount := totalOf items' })

/-- One lifecycle operation. -/
inductive Op where
  | confirm (oid : Nat)
  | cancel (oid : Nat)
  | updateItem (oid itemId : Nat) (newQuantity : Nat)
  deriving Repr, DecidableEq

/-- Run one operation; a failed operation rolls back fully, leaving the
state unchanged (spec section 5: transactions either fully commit or fully
abort). -/
def applyOp (s : State) : Op → State
  | .confirm oid =>
    match confirm s oid with
    | .ok s' => s'
    | .error _ => s
  | .cancel oid =>
    match cancel s oid with
    | .ok s' => s'
    | .error _ => s
  | .updateItem oid itemId q =>
    match updateItem s oid itemId q with
    | .ok s' => s'
    | .error _ => s

/-- Run a sequence of operations. -/
def run (ops : List Op) (s : State) : State := ops.foldl applyOp s

lemma requiredQty_nonneg (items : List OrderItem) (pid : Nat) :
    0 ≤ requiredQty items pid := by
  refine List.sum_nonneg ?_
  intro x hx
  rcases List.mem_map.mp hx with ⟨it, -, rfl⟩
  exact Int.natCast_nonneg it.quantity

lemma requiredQty_cons (it : OrderItem) (rest : List OrderItem) (pid : Nat) :
    requiredQty (it :: rest) pid =
      (if it.product_id = pid then (it.quantity : Int) else 0) +
        requiredQty rest pid := by
  by_cases h : it.product_id = pid
  · simp [requiredQty, List.filter_cons, h]
  · simp [requiredQty, List.filter_cons, h]

lemma requiredQty_eq_zero (items : List OrderItem) (pid : Nat)
    (h : ∀ it ∈ items, ¬ it.product_id = pid) : requiredQty items pid = 0 := by
  have : items.filter (fun it => it.product_id = pid) = [] := by
    rw [List.filter_eq_nil_iff]
    intro it hit
    simpa using h it hit
  simp [requiredQty, this]

lemma requiredQty_ge_item {items : List OrderItem} {it : OrderItem}
    (h : it ∈ items) : (it.quantity : Int) ≤ requiredQty items it.product_id := by
  refine List.single_le_sum ?_ _ ?_
  · intro x hx
    rcases List.mem_map.mp hx with ⟨y, -, rfl⟩
    exact Int.natCast_nonneg y.quantity
  · exact List.mem_map.mpr ⟨it, List.mem_filter.mpr ⟨h, by simp⟩, rfl⟩

lemma deductItems_eq :
    ∀ (items : List OrderItem) (stock : Nat → Int) (pid : Nat),
      deductItems stock items pid = stock pid - requiredQty items pid := by
  intro items
  induction items with
  | nil => intro stock pid; simp [deductItems, requiredQty]
  | cons it rest ih =>
    intro stock pid
    rw [deductItems, ih, requiredQty_cons]
    by_cases h : it.product_id = pid
    · rw [if_pos h, if_pos h.symm]
      ring
    · rw [if_neg h, if_neg (fun hc => h hc.symm)]
      ring

lemma restoreItems_eq :
    ∀ (items : List OrderItem) (stock : Nat → Int) (pid : Nat),
      restoreItems stock items pid = stock pid + requiredQty items pid := by
  intro items
  induction items with
  | nil => intro stock pid; simp [restoreItems, requiredQty]
  | cons it rest ih =>
    intro stock pid
    rw [restoreItems, ih, requiredQty_cons]
    by_cases h : it.product_id = pid
    · rw [if_pos h, if_pos h.symm]
      ring
    · rw [if_neg h, if_neg (fun hc => h hc.symm)]
      ring

lemma confirm_ok_stock {s : State} {oid : Nat} {s' : State}
    (hok : confirm s oid = .ok s')
    (hnn : ∀ pid, 0 ≤ s.stock pid) : ∀ pid, 0 ≤ s'.stock pid := by
  intro pid
  rw [confirm] at hok
  cases hfind : findOrder s oid with
  | none =>
    rw [hfind] at hok
    cases hok
  | some o =>
    rw [hfind] at hok
    dsimp only at hok
    by_cases hst : o.status = Status.pending
    · rw [if_neg (by simpa using hst)] at hok
      cases hany : o.items.any
          (fun it => decide (s.stock it.product_id < requiredQty o.items it.product_id)) with
      | true =>
        rw [if_pos (by rw [hany])] at hok
        cases hok
      | false =>
        rw [if_neg (by rw [hany]; exact Bool.false_ne_true)] at hok
        cases hok
        show 0 ≤ deductItems s.stock o.items pid
        rw [deductItems_eq]
        have hfit : ∀ it ∈ o.items,
            ¬ s.stock it.product_id < requiredQty o.items it.product_id := by
          intro it hit
          have hx := List.any_eq_false.mp hany it hit
          simpa using hx
        by_cases hz : requiredQty o.items pid = 0
        · rw [hz]
          have := hnn pid
          omega
        · have hmem : ∃ it ∈ o.items, it.product_id = pid := by
            by_contra hno
            push_neg at hno
            exact hz (requiredQty_eq_zero o.items pid hno)
          rcases hmem with ⟨it, hit, rfl⟩
          have := hfit it hit
          omega
    · rw [if_pos (by simpa using hst)] at hok
      cases hok

lemma cancel_ok_stock {s : State} {oid : Nat} {s' : State}
    (hok : cancel s oid = .ok s')
    (hnn : ∀ pid, 0 ≤ s.stock pid) : ∀ pid, 0 ≤ s'.stock pid := by
  intro pid
  rw [cancel] at hok
  cases hfind : findOrder s oid with
  | none =>
    rw [hfind] at hok
    cases hok
  | some o =>
    rw [hfind] at hok
    dsimp only at hok
    cases hst : o.status with
    | cancelled =>
      rw [hst] at hok
      cases hok
    | pending =>
      rw [hst] at hok
      dsimp only at hok
      cases hok
      exact hnn pid
    | confirmed =>
      rw [hst] at hok
      dsimp only at hok
      cases hok
      show 0 ≤ restoreItems s.stock o.items pid
      rw [restoreItems_eq]
      have h1 := requiredQty_nonneg o.items pid
      have h2 := hnn pid
      omega

lemma updateItem_ok_stock {s : State} {oid itemId : Nat} {q : Nat} {s' : State}
    (hok : updateItem s oid itemId q = .ok s')
    (hnn : ∀ pid, 0 ≤ s.stock pid) : ∀ pid, 0 ≤ s'.stock pid := by
  intro pid
  rw [updateItem] at hok
  cases hfind : findOrder s oid with
  | none =>
    rw [hfind] at hok
    cases hok
  | some o =>
    rw [hfind] at hok
    dsimp only at hok
    by_cases hst : o.status = Status.confirmed
    · rw [if_neg (by simpa using hst)] at hok
      cases hitem : o.items.find? (fun it => it.id = itemId) with
      | none =>
        rw [hitem] at hok
        cases hok
      | some item =>
        rw [hitem] at hok
        dsimp only at hok
        by_cases hq0 : q = 0
        · rw [if_pos hq0] at hok
          cases hok
          show 0 ≤ adjustStock s.stock item.product_id (item.quantity : Int) pid
          unfold adjustStock
          have h1 := hnn pid
          have h2 := Int.natCast_nonneg item.quantity
          by_cases hp : pid = item.product_id
          · rw [if_pos hp]
            omega
          · rw [if_neg hp]
            omega
        · rw [if_neg hq0] at hok
          by_cases hinc : item.quantity < q
          · rw [if_pos hinc] at hok
            by_cases hstock : s.stock item.product_id < (q : Int) - (item.quantity : Int)
            · rw [if_pos hstock] at hok
              cases hok
            · rw [if_neg hstock] at hok
              cases hok
              show 0 ≤ adjustStock s.stock item.product_id
                (-((q : Int) - (item.quantity : Int))) pid
              unfold adjustStock
              have h1 := hnn pid
              by_cases hp : pid = item.product_id
              · rw [if_pos hp, hp]
                omega
              · rw [if_neg hp]
                omega
          · rw [if_neg hinc] at hok
            cases hok
            show 0 ≤ adjustStock s.stock item.product_id
              ((item.quantity : Int) - (q : Int)) pid
            unfold adjustStock
            have h1 := hnn pid
            have hle : (q : Int) ≤ (item.quantity : Int) := by
              have hn := Nat.not_lt.mp hinc
              exact_mod_cast hn
            by_cases hp : pid = item.product_id
            · rw [if_pos hp, hp]
              have h3 := hnn item.product_id
              omega
            · rw [if_neg hp]
              omega
    · rw [if_pos (by simpa using hst)] at hok
      cases hok

lemma applyOp_stock_nonneg (s : State) (op : Op)
    (hnn : ∀ pid, 0 ≤ s.stock pid) : ∀ pid, 0 ≤ (applyOp s op).stock pid := by
  cases op with
  | confirm oid =>
    intro pid
    rw [applyOp]
    cases hc : confirm s oid with
    | ok s' =>
      dsimp only
      exact confirm_ok_stock hc hnn pid
    | error e =>
      dsimp only
      exact hnn pid
  | cancel oid =>
    intro pid
    rw [applyOp]
    cases hc : cancel s oid with
    | ok s' =>
      dsimp only
      exact cancel_ok_stock hc hnn pid
    | error e =>
      dsimp only
      exact hnn pid
  | updateItem oid itemId q =>
    intro pid
    rw [applyOp]
    cases hc : updateItem s oid itemId q with
    | ok s' =>
      dsimp only
      exact updateItem_ok_stock hc hnn pid
    | error e =>
      dsimp only
      exact hnn pid

/-- C3: confirming a pending order in which some item's required quantity
exceeds the available stock of its product aborts the whole operation with
`InsufficientStock`, and the operation leaves the state unchanged: no
deduction occurs for any item, every product's stock_quantity and the
order's status are untouched. (Spec-modelled backend: `OrderLifecycle` is
not under src/.) -/
theorem c3_confirm_no_partial_effect (s : State) (oid : Nat) (o : Order)
    (ho : findOrder s oid = some o) (hp : o.status = .pending)
    (hviol : ∃ it ∈ o.items, s.stock it.product_id < (it.quantity : Int)) :
    confirm s oid = .error .insufficientStock ∧ applyOp s (.confirm oid) = s := by
  have hconf : confirm s oid = .error .insufficientStock := by
    rw [confirm, ho]
    dsimp only
    rw [if_neg (by simpa using hp)]
    rw [if_pos ?side]
    case side =>
      rw [List.any_eq_true]
      rcases hviol with ⟨it, hit, hlt⟩
      refine ⟨it, hit, ?_⟩
      have hge := requiredQty_ge_item hit
      simp only [decide_eq_true_eq]
      omega
  refine ⟨hconf, ?_⟩
  rw [applyOp, hconf]

/-- C3 (witness): Scenario B of the spec — stock 2, single pending order
asking 5 units: confirm fails with `InsufficientStock` and the state is
unchanged. -/
theorem c3_witness :
    confirm ⟨fun _ => 2, [⟨1, "O3", .pending, [⟨10, 5, 5, 4⟩], 20⟩]⟩ 1 =
      .error .insufficientStock ∧
    applyOp ⟨fun _ => 2, [⟨1, "O3", .pending, [⟨10, 5, 5, 4⟩], 20⟩]⟩ (.confirm 1) =
      ⟨fun _ => 2, [⟨1, "O3", .pending, [⟨10, 5, 5, 4⟩], 20⟩]⟩ :=
  c3_confirm_no_partial_effect _ 1 ⟨1, "O3", .pending, [⟨10, 5, 5, 4⟩], 20⟩ rfl rfl
    ⟨⟨10, 5, 5, 4⟩, List.mem_singleton.mpr rfl, by decide⟩

/-- C4: non-negative stock is an invariant — from any state with all stock
quantities ≥ 0, after any sequence of confirm/cancel/updateItem operations
every product's stock_quantity is still ≥ 0: confirm and the increase case
of updateItem deduct only after their stock checks pass, the other cases
only add. (Spec-modelled backend.) -/
theorem c4_stock_never_negative (ops : List Op) (s : State)
    (hinit : ∀ pid, 0 ≤ s.stock pid) : ∀ pid, 0 ≤ (run ops s).stock pid := by
  induction ops generalizing s with
  | nil => simpa [run] using hinit
  | cons op rest ih =>
    have h1 := applyOp_stock_nonneg s op hinit
    simpa [run, List.foldl_cons] using ih (applyOp s op) h1

/-- C4 (witness): a concrete run — confirm, partial item cancellation, then
cancel — starting from stock 10 everywhere leaves the touched product's
stock ≥ 0. -/
theorem c4_witness :
    0 ≤ (run [.confirm 1, .updateItem 1 10 0, .cancel 1]
      ⟨fun _ => 10, [⟨1, "O4", .pending, [⟨10, 5, 3, 4⟩], 12⟩]⟩).stock 5 :=
  c4_stock_never_negative [.confirm 1, .updateItem 1 10 0, .cancel 1]
    ⟨fun _ => 10, [⟨1, "O4", .pending, [⟨10, 5, 3, 4⟩], 12⟩]⟩
    (fun _ => by show (0 : Int) ≤ 10; decide) 5

end Backend

/-! Frontend order-management interface (`OrderList.js`, `OrderDetails.js`). -/

/-- An order item as the list/detail views render it. -/
structure UIItem where
  id : Nat
  product_name : String
  quantity : Int
  unit_price : Int
  deriving Repr, DecidableEq

/-- An order as the list/detail views render it (status is the raw string
the API returns). -/
structure UIOrder where
  id : Nat
  order_number : String
  status : String
  items : List UIItem
  deriving Repr, DecidableEq

/-- `OrderList.js` line 284: the Cancel Order button's disabled condition
`actionLoading || selectedOrder.status === 'cancelled'`. -/
def cancelDisabledOL (actionLoading : Bool) (status : String) : Bool :=
  actionLoading || decide (status = "cancelled")

/-- `OrderList.js` line 291: the Confirm Order button's disabled condition
`actionLoading || selectedOrder.status !== 'pending'`. -/
def confirmDisabledOL (actionLoading : Bool) (status : String) : Bool :=
  actionLoading || !(decide (status = "pending"))

/-- `OrderDetails.js` line 170: disabled when loading, confirmed or
cancelled. -/
def confirmDisabledOD (actionLoading : Bool) (status : String) : Bool :=
  actionLoading || decide (status = "confirmed") || decide (status = "cancelled")

/-- `OrderDetails.js` line 187. -/
def cancelDisabledOD (actionLoading : Bool) (status : String) : Bool :=
  actionLoading || decide (status = "cancelled")

/-- The two lifecycle actions the buttons can request. -/
inductive ActionKind where
  | confirm
  | cancel
  deriving Repr, DecidableEq

/-- A `POST /api/orders/{id}/{confirm|cancel}/` request. -/
structure ActionRequest where
  orderId : Nat
  kind : ActionKind
  deriving Repr, DecidableEq

/-- Clicking Confirm or Cancel in the `OrderList` details panel: the click
reaches `handleAction` only if the button is enabled in the rendered state;
the handler then posts for `selectedOrder.id`. -/
def clickActionOL (actionLoading : Bool) (o : UIOrder) (k : ActionKind) :
    Option ActionRequest :=
  match k with
  | .confirm =>
    if confirmDisabledOL actionLoading o.status then none
    else some ⟨o.id, .confirm⟩
  | .cancel =>
    if cancelDisabledOL actionLoading o.status then none
    else some ⟨o.id, .cancel⟩

/-- Clicking Confirm or Cancel in `OrderDetails` (`handleConfirm`,
`handleCancel`). -/
def clickActionOD (actionLoading : Bool) (o : UIOrder) (k : ActionKind) :
    Option ActionRequest :=
  match k with
  | .confirm =>
    if confirmDisabledOD actionLoading o.status then none
    else some ⟨o.id, .confirm⟩
  | .cancel =>
    if cancelDisabledOD actionLoading o.status then none
    else some ⟨o.id, .cancel⟩

/-- C6: in both views, in every rendered state the Confirm control is
disabled unless the selected order's status is `"pending"` and the Cancel
control is disabled when it is `"cancelled"`; consequently a confirm request
is only ever issued for a pending order and a cancel request never for a
cancelled one. (For `OrderDetails`, whose disabled condition enumerates the
two other statuses, the status is assumed to be one of the three the data
model admits.) -/
theorem c6_button_guards (al : Bool) (o : UIOrder) :
    (¬ o.status = "pending" → confirmDisabledOL al o.status = true) ∧
    (o.status = "cancelled" → cancelDisabledOL al o.status = true) ∧
    (∀ req, clickActionOL al o .confirm = some req → o.status = "pending") ∧
    (∀ req, clickActionOL al o .cancel = some req → ¬ o.status = "cancelled") ∧
    (o.status = "pending" ∨ o.status = "confirmed" ∨ o.status = "cancelled" →
      (¬ o.status = "pending" → confirmDisabledOD al o.status = true) ∧
      (∀ req, clickActionOD al o .confirm = some req → o.status = "pending")) ∧
    (o.status = "cancelled" → cancelDisabledOD al o.status = true) ∧
    (∀ req, clickActionOD al o .cancel = some req → ¬ o.status = "cancelled") := by
  refine ⟨?_, ?_, ?_, ?_, ?_, ?_, ?_⟩
  · intro h
    simp [confirmDisabledOL, h]
  · intro h
    simp [cancelDisabledOL, h]
  · intro req h
    rw [clickActionOL] at h
    by_cases hd : confirmDisabledOL al o.status = true
    · rw [if_pos hd] at h
      cases h
    · by_contra hp
      exact hd (by simp [confirmDisabledOL, hp])
  · intro req h
    rw [clickActionOL] at h
    by_cases hd : cancelDisabledOL al o.status = true
    · rw [if_pos hd] at h
      cases h
    · intro hc
      exact hd (by simp [cancelDisabledOL, hc])
  · intro hr
    constructor
    · intro h
      rcases hr with hp | hc | hc
      · exact absurd hp h
      · simp [confirmDisabledOD, hc]
      · simp [confirmDisabledOD, hc]
    · intro req h
      rw [clickActionOD] at h
      by_cases hd : confirmDisabledOD al o.status = true
      · rw [if_pos hd] at h
        cases h
      · by_contra hp
        rcases hr with hp' | hc | hc
        · exact hp hp'
        · exact hd (by simp [confirmDisabledOD, hc])
        · exact hd (by simp [confirmDisabledOD, hc])
  · intro h
    simp [cancelDisabledOD, h]
  · intro req h
    rw [clickActionOD] at h
    by_cases hd : cancelDisabledOD al o.status = true
    · rw [if_pos hd] at h
      cases h
    · intro hc
      exact hd (by simp [cancelDisabledOD, hc])

/-- C6 (witness): the guards evaluated for a concrete cancelled order — both
Confirm and Cancel are disabled in both views, and clicking issues nothing. -/
theorem c6_witness :
    confirmDisabledOL false "cancelled" = true ∧
    cancelDisabledOL false "cancelled" = true ∧
    confirmDisabledOD false "cancelled" = true ∧
    cancelDisabledOD false "cancelled" = true :=
  ⟨(c6_button_guards false ⟨1, "O6", "cancelled", []⟩).1 (by decide),
   (c6_button_guards false ⟨1, "O6", "cancelled", []⟩).2.1 rfl,
   ((c6_button_guards false ⟨1, "O6", "cancelled", []⟩).2.2.2.2.1
     (Or.inr (Or.inr rfl))).1 (by decide),
   (c6_button_guards false ⟨1, "O6", "cancelled", []⟩).2.2.2.2.2.1 rfl⟩

/-! Claim C7 — item editing and the OrderList component state -/

/-- The `editingItem` state of `OrderList` (`{ id, quantity }`). -/
structure EditingItem where
  id : Nat
  quantity : Int
  deriving Repr, DecidableEq

/-- The component state of `OrderList` relevant to item editing. -/
structure UIState where
  selectedOrder : Option UIOrder
  editingItem : Option EditingItem
  deriving Repr, DecidableEq

/-- A `POST /api/orders/{orderId}/update-item/` request body. -/
structure UpdateItemRequest where
  orderId : Nat
  order_item_id : Nat
  new_quantity : Int
  deriving Repr, DecidableEq

/-- `handleCancelItem` (`OrderList.js` lines 116–139): posts `update-item`
for the selected order with `new_quantity: 0` — "Setting to 0 removes the
item". -/
def handleCancelItemRequest (selectedOrderId itemId : Nat) : UpdateItemRequest :=
  { orderId := selectedOrderId, order_item_id := itemId, new_quantity := 0 }

/-- User/UI events of the `OrderList` component that touch item editing. -/
inductive UIEvent where
  | selectOrder (o : UIOrder)
  | clickEdit (itemId : Nat)
  | cancelSuccess
  | clickSave
  deriving Repr, DecidableEq

/-- One event step of `OrderList.js`, from its handlers and render guards;
an event whose control is not rendered (or whose handler returns early)
yields `none`. `selectOrder` is a click on a list row (`setSelectedOrder`).
`clickEdit` is the per-item Edit button, rendered only when the selected
order's status is `"confirmed"` and the row is not already in edit mode
(lines 225–271). `cancelSuccess` is the completion of
`handleAction('cancel')`: the refreshed order the backend returns (status
`"cancelled"`, same id and items — spec section 4.2, backend not under src/)
replaces `selectedOrder`, and no handler clears `editingItem`. `clickSave`
is the Save button of the edit row, which the table renders for the row
matching `editingItem` WITHOUT a status guard (lines 233–253);
`handleUpdateItem` then posts the update-item request. Returns the next
state and the request issued, if any. -/
def step (st : UIState) : UIEvent → Option (UIState × Option UpdateItemRequest)
  | .selectOrder o => some ({ st with selectedOrder := some o }, none)
  | .clickEdit itemId =>
    match st.selectedOrder with
    | none => none
    | some o =>
      match o.items.find? (fun it => it.id = itemId) with
      | none => none
      | some item =>
        if decide (o.status = "confirmed") &&
            (match st.editingItem with
             | some e => !(decide (e.id = itemId))
             | none => true) then
          some ({ st with editingItem := some ⟨item.id, item.quantity⟩ }, none)
        else none
  | .cancelSuccess =>
    match st.selectedOrder with
    | none => none
    | some o =>
      if cancelDisabledOL false o.status then none
      else some ({ st with selectedOrder := some { o with status := "cancelled" } },
                 none)
  | .clickSave =>
    match st.selectedOrder, st.editingItem with
    | some o, some e =>
      if o.items.any (fun it => it.id = e.id) then
        some ({ st with editingItem := none }, some ⟨o.id, e.id, e.quantity⟩)
      else none
    | some _, none => none
    | none, _ => none

/-- Run a list of events, collecting the update-item requests issued. -/
def runUI : UIState → List UIEvent → Option (UIState × List UpdateItemRequest)
  | st, [] => some (st, [])
  | st, e :: es =>
    match step st e with
    | none => none
    | some (st', req) =>
      match runUI st' es with
      | none => none
      | some (stF, reqs) => some (stF, req.toList ++ reqs)

/-- A confirmed order with one item, for the C7 analysis. -/
def c7Order : UIOrder := ⟨1, "ORD-7", "confirmed", [⟨10, "Widget", 2, 5⟩]⟩

/-- C7 (counterexample): from the initial component state, selecting a
confirmed order, opening an edit row, and cancelling the whole order leaves
the stale edit row rendered (the edit row has no status guard and
`editingItem` is never cleared on cancel); clicking its Save button then
issues an update-item request for the selected order although its status is
`"cancelled"` — so the interface can issue an update-item request for an
order that is not `"confirmed"`. -/
theorem c7_counterexample :
    runUI ⟨none, none⟩ [.selectOrder c7Order, .clickEdit 10, .cancelSuccess] =
      some (⟨some { c7Order with status := "cancelled" }, some ⟨10, 2⟩⟩, []) ∧
    step ⟨some { c7Order with status := "cancelled" }, some ⟨10, 2⟩⟩ .clickSave =
      some (⟨some { c7Order with status := "cancelled" }, none⟩, some ⟨1, 10, 2⟩) ∧
    ({ c7Order with status := "cancelled" } : UIOrder).status = "cancelled" ∧
    ¬ ({ c7Order with status := "cancelled" } : UIOrder).status = "confirmed" :=
  ⟨rfl, rfl, rfl, by decide⟩

/-- C7 (amended): the per-item Edit buttons and the Actions column that
holds them are rendered only when the selected order's status is
`"confirmed"`, so edit mode can only be ENTERED on a confirmed order (and
entering it issues no request); an edit row that is already open, however,
is not status-guarded, so its Save control can still issue an update-item
request after the selected order has transitioned to `"cancelled"`. -/
theorem c7_edit_entry_requires_confirmed (st : UIState) (itemId : Nat)
    (out : UIState × Option UpdateItemRequest)
    (h : step st (.clickEdit itemId) = some out) :
    ∃ o, st.selectedOrder = some o ∧ o.status = "confirmed" ∧ out.2 = none := by
  rw [step] at h
  cases hso : st.selectedOrder with
  | none =>
    rw [hso] at h
    cases h
  | some o =>
    rw [hso] at h
    dsimp only at h
    cases hfi : o.items.find? (fun it => it.id = itemId) with
    | none =>
      rw [hfi] at h
      cases h
    | some item =>
      rw [hfi] at h
      dsimp only at h
      by_cases hc : (decide (o.status = "confirmed") &&
          (match st.editingItem with
           | some e => !(decide (e.id = itemId))
           | none => true)) = true
      · rw [if_pos hc] at h
        cases h
        refine ⟨o, rfl, ?_, rfl⟩
        have h1 := (Bool.and_eq_true _ _).mp hc
        exact of_decide_eq_true h1.1
      · rw [if_neg hc] at h
        cases h

/-- C7 (witness): the amended theorem applied to the concrete confirmed
order — opening the edit row succeeds, and the theorem certifies the order
was confirmed and no request was issued. -/
theorem c7_witness :
    ∃ o, (⟨some c7Order, none⟩ : UIState).selectedOrder = some o ∧
      o.status = "confirmed" ∧
      ((⟨some c7Order, some ⟨10, 2⟩⟩ : UIState), (none : Option UpdateItemRequest)).2
        = none :=
  c7_edit_entry_requires_confirmed ⟨some c7Order, none⟩ 10
    (⟨some c7Order, some ⟨10, 2⟩⟩, none) rfl

/-! Claim C8 — cancelling a single item and zero-quantity removal -/

namespace Backend

lemma find?_map_setOrder (oid : Nat) (o o' : Order) (hid : o'.id = o.id) :
    ∀ l : List Order, l.find? (fun x => x.id = oid) = some o →
      (l.map (fun x => if x.id = o'.id then o' else x)).find?
        (fun x => x.id = oid) = some o' := by
  intro l
  induction l with
  | nil =>
    intro h
    cases h
  | cons x xs ih =>
    intro h
    by_cases hx : x.id = oid
    · rw [List.find?_cons_of_pos _ (by simpa using hx)] at h
      injection h with h
      subst h
      rw [List.map_cons, if_pos hid.symm]
      exact List.find?_cons_of_pos _ (by simp [hid, hx])
    · rw [List.find?_cons_of_neg _ (by simpa using hx)] at h
      have hoid : o.id = oid := by
        have hp := List.find?_some h
        simpa using hp
      rw [List.map_cons]
      by_cases hxo : x.id = o'.id
      · exact absurd (by rw [hxo, hid, hoid]) hx
      · rw [if_neg hxo]
        rw [List.find?_cons_of_neg _ (by simpa using hx)]
        exact ih h

lemma findOrder_setOrder {s : State} {oid : Nat} {o : Order} (o' : Order)
    (ho : findOrder s oid = some o) (hid : o'.id = o.id) :
    findOrder (setOrder s o') oid = some o' :=
  find?_map_setOrder oid o o' hid s.orders ho

end Backend

/-- C8: cancelling a single item of a confirmed order issues `update-item`
with `new_quantity` exactly 0 (`handleCancelItem`), and — in the
spec-modelled backend, `OrderItemEditor` not being under src/ — setting an
item's quantity to 0 removes that item from the order entirely (no item with
its id remains, the total is recomputed from the remaining items) and
restores its full current quantity to the product's stock. -/
theorem c8_zero_quantity_removal (s : Backend.State) (oid itemId : Nat)
    (o : Backend.Order) (item : Backend.OrderItem)
    (ho : Backend.findOrder s oid = some o) (hst : o.status = .confirmed)
    (hit : o.items.find? (fun it => it.id = itemId) = some item) :
    (handleCancelItemRequest oid itemId).new_quantity = 0 ∧
    ∃ s', Backend.updateItem s oid itemId 0 = .ok s' ∧
      s'.stock item.product_id = s.stock item.product_id + (item.quantity : Int) ∧
      ∃ o', Backend.findOrder s' oid = some o' ∧
        o'.items = o.items.filter (fun it => ¬ it.id = itemId) ∧
        (∀ it ∈ o'.items, ¬ it.id = itemId) ∧
        o'.total_amount = Backend.totalOf o'.items := by
  refine ⟨rfl, ?_⟩
  have hupd : Backend.updateItem s oid itemId 0 = .ok (Backend.setOrder
      { s with
          stock := Backend.adjustStock s.stock item.product_id (item.quantity : Int) }
      { o with
          items := o.items.filter (fun it => ¬ it.id = itemId),
          total_amount :=
            Backend.totalOf (o.items.filter (fun it => ¬ it.id = itemId)) }) := by
    rw [Backend.updateItem, ho]
    dsimp only
    rw [if_neg (by simpa using hst), hit]
    dsimp only
    rw [if_pos rfl]
  refine ⟨_, hupd, ?_, ?_⟩
  · show Backend.adjustStock s.stock item.product_id (item.quantity : Int)
      item.product_id = _
    rw [Backend.adjustStock, if_pos rfl]
  · refine ⟨_, Backend.findOrder_setOrder _ ho rfl, rfl, ?_, rfl⟩
    intro it hmem
    have hp := (List.mem_filter.mp hmem).2
    simpa using hp

/-- C8 (witness): a confirmed order with one item of quantity 2 on a product
with stock 7 — cancelling the item issues `new_quantity = 0`, the item
disappears and the stock rises to 9. -/
theorem c8_witness :
    (handleCancelItemRequest 1 10).new_quantity = 0 ∧
    ∃ s', Backend.updateItem
        ⟨fun _ => 7, [⟨1, "O8", .confirmed, [⟨10, 3, 2, 6⟩], 12⟩]⟩ 1 10 0 = .ok s' ∧
      s'.stock 3 = (⟨fun _ => 7,
        [⟨1, "O8", .confirmed, [⟨10, 3, 2, 6⟩], 12⟩]⟩ : Backend.State).stock 3 +
        ((2 : Nat) : Int) ∧
      ∃ o', Backend.findOrder s' 1 = some o' ∧
        o'.items = ([⟨10, 3, 2, 6⟩] : List Backend.OrderItem).filter
          (fun it => ¬ it.id = 10) ∧
        (∀ it ∈ o'.items, ¬ it.id = 10) ∧
        o'.total_amount = Backend.totalOf o'.items :=
  c8_zero_quantity_removal
    ⟨fun _ => 7, [⟨1, "O8", .confirmed, [⟨10, 3, 2, 6⟩], 12⟩]⟩ 1 10
    ⟨1, "O8", .confirmed, [⟨10, 3, 2, 6⟩], 12⟩ ⟨10, 3, 2, 6⟩ rfl rfl rfl

end OMS
